import Mathlib

/-!
Verification of the fare-extraction logic of the Ryanair-Puppeteer scripts.

The scripts drive a browser and then, inside `page.evaluate` blocks, run pure
extraction code over the rendered DOM: regex splitting of price text, a
selector-cascade text resolver, three record extractors, a three-tier result
reconciler, and a cheapest-offer fold.  This file shallowly embeds that pure
extraction code.  A DOM element is modelled by its `textContent`; a page is
modelled by the element collections returned by the fixed `querySelectorAll`
calls the scripts issue.  JavaScript string truthiness (only `""` is falsy
among strings), the first-match semantics of `String.prototype.match` with a
character-class regex, `parseFloat` on digit/dot strings (NaN as `Option`),
and the `Infinity` sentinel are embedded explicitly.  Numeric values are
exact rationals; the prices in play are short decimal literals, for which
IEEE doubles and rationals agree on every comparison performed.
-/

/-- Character class `\d` of the scripts' regexes. -/
def isDigitCh (c : Char) : Bool := c.isDigit

/-- Character class `\s` (JS whitespace, ASCII part plus NBSP). -/
def jsSpace (c : Char) : Bool :=
  c = ' ' || c = '\t' || c = '\n' || c = '\r' || c = '\x0b' || c = '\x0c' || c.toNat = 160

/-- Characters matched by `/[\d,.]+/`: digits, comma, period. -/
def isAmountChar (c : Char) : Bool := isDigitCh c || c = ',' || c = '.'

/-- Characters matched by `/[^\d\s,.]+/`: not digit, space, comma or period. -/
def isCurrencyChar (c : Char) : Bool := !(isDigitCh c || jsSpace c || c = ',' || c = '.')

/-- `text.match(/[p]+/)`: the leftmost maximal run of characters satisfying
`p`, or `none` when no character of `text` satisfies `p`.  This is the
first-match semantics of JavaScript `String.prototype.match` without the `g`
flag on a character-class regex. -/
def matchRun (p : Char → Bool) : List Char → Option (List Char)
  | [] => none
  | c :: cs => if p c then some (c :: cs.takeWhile p) else matchRun p cs

/-- Helper for `pRuns`: decomposition into maximal runs, carrying the
(reversed) run currently being read. -/
def pRunsAux (p : Char → Bool) : List Char → List Char → List (List Char)
  | [], acc => if acc.isEmpty then [] else [acc.reverse]
  | c :: cs, acc =>
    if p c then pRunsAux p cs (c :: acc)
    else if acc.isEmpty then pRunsAux p cs [] else acc.reverse :: pRunsAux p cs []

/-- All maximal contiguous runs of characters satisfying `p`, in text order. -/
def pRuns (p : Char → Bool) (l : List Char) : List (List Char) := pRunsAux p l []

/-- The longest of the maximal runs (earliest wins a length tie); this is the
specification's wording "the longest contiguous run", written here only to be
compared against the source's first-match semantics. -/
def longestRun (p : Char → Bool) (l : List Char) : Option (List Char) :=
  (pRuns p l).foldl
    (fun best r =>
      match best with
      | none => some r
      | some b => if r.length > b.length then some r else best)
    none

/-- Decimal digits to a natural number. -/
def digitsToNat (l : List Char) : Nat :=
  l.foldl (fun n c => 10 * n + (c.toNat - '0'.toNat)) 0

/-- `parseFloat` restricted to strings of digits and periods (what reaches it
in the scripts after comma removal): an integer part, optionally a period and
a fractional part; anything after a second period is ignored; `none` models
`NaN`, produced when no digit is read. -/
def jsParseFloat (l : List Char) : Option ℚ :=
  let intPart := l.takeWhile isDigitCh
  let rest := l.dropWhile isDigitCh
  match rest with
  | '.' :: rest2 =>
    let frac := rest2.takeWhile isDigitCh
    if intPart.isEmpty && frac.isEmpty then none
    else
      some (mkRat (Int.ofNat (digitsToNat intPart * 10 ^ frac.length + digitsToNat frac))
        (10 ^ frac.length))
  | _ => if intPart.isEmpty then none else some (mkRat (Int.ofNat (digitsToNat intPart)) 1)

/-- A JavaScript number as the price comparisons see it: `NaN`, `Infinity`,
or a finite value. -/
inductive JsVal : Type
  | nan : JsVal
  | inf : JsVal
  | num : ℚ → JsVal
deriving DecidableEq

/-- JavaScript `<` on `JsVal`: any comparison with `NaN` is false, `Infinity`
is above every finite value and not below itself. -/
def jsLtB : JsVal → JsVal → Bool
  | JsVal.nan, _ => false
  | _, JsVal.nan => false
  | JsVal.inf, _ => false
  | JsVal.num _, JsVal.inf => true
  | JsVal.num a, JsVal.num b => decide (a < b)

/-- `getPriceNumeric` from the cheapest-flight reduce (src/index.ts lines
402..405): match `/[\d,.]+/` against the price string, strip commas from the
match and `parseFloat` it; `Infinity` when there is no match. -/
def getPriceNumeric (price : String) : JsVal :=
  match matchRun isAmountChar price.data with
  | none => JsVal.inf
  | some run =>
    match jsParseFloat (run.filter (fun c => c ≠ ',')) with
    | none => JsVal.nan
    | some q => JsVal.num q

/-- The `amount` side of the price split (`priceMatch ? priceMatch[0] : 'N/A'`,
src/index.ts line 123). -/
def parseMoneyAmount (text : String) : String :=
  (matchRun isAmountChar text.data).elim "N/A" String.mk

/-- The `currency` side of the split in the date-strip extractor
(`currencyMatch ? currencyMatch[0] : 'N/A'`, src/index.ts line 124). -/
def dateCurrency (text : String) : String :=
  (matchRun isCurrencyChar text.data).elim "N/A" String.mk

/-- The `currency` side of the split in the flight-card extractor
(`currencyMatch ? currencyMatch[0] : ''`, src/index.ts line 192). -/
def cardCurrency (text : String) : String :=
  (matchRun isCurrencyChar text.data).elim "" String.mk

/-- `price.replace(/[\d\s,.]+/g, '')`: delete every digit, whitespace, comma
and period character (src/index.ts lines 331 and 351). -/
def stripAmountChars (text : String) : String :=
  String.mk (text.data.filter isCurrencyChar)

/-- JavaScript `String.prototype.trim`: drop leading and trailing whitespace. -/
def jsTrim (s : String) : String :=
  String.mk (((s.data.dropWhile jsSpace).reverse.dropWhile jsSpace).reverse)

/-! ## DOM model

An element is modelled by its `textContent` (never null on DOM element
nodes).  Each extractor reads a fixed set of `querySelector` /
`querySelectorAll` results from an element, so an element of a given kind is
modelled as the record of those results. -/

/-- A DOM element, reduced to its text content. -/
structure Elem where
  text : String
deriving DecidableEq

/-- `element ? element.textContent?.trim() || dflt : dflt`: the trimmed text
of an optional element, with `dflt` both for a missing element and (by
JavaScript falsiness of `""`) for empty trimmed text. -/
def textOr (e : Option Elem) (dflt : String) : String :=
  match e with
  | none => dflt
  | some el => if jsTrim el.text = "" then dflt else jsTrim el.text

/-- `list[i]?.textContent?.trim() || dflt` for an element collection. -/
def idxTextOr (l : List Elem) (i : Nat) (dflt : String) : String :=
  match l.get? i with
  | none => dflt
  | some el => if jsTrim el.text = "" then dflt else jsTrim el.text

/-- `element ? element.textContent?.trim() : ''` (no `||` fallback). -/
def optTrim (e : Option Elem) : String :=
  match e with
  | none => ""
  | some el => jsTrim el.text

/-! ## Date-strip extractor (src/index.ts lines 98..134) -/

/-- A `.date-item` element: its `date-item--selected` class membership and
the four sub-elements the script queries. -/
structure DateItem where
  selected : Bool
  dayEl : Option Elem
  monthEl : Option Elem
  weekdayEl : Option Elem
  priceEl : Option Elem

/-- The `DatePrice` record of src/index.ts. -/
structure DatePrice where
  date : String
  weekday : String
  price : String
  currency : String
  isSelected : Bool
deriving DecidableEq

/-- Per-item body of the `datePrices` extraction. -/
def extractDateItem (item : DateItem) : DatePrice :=
  let day := textOr item.dayEl ""
  let month := textOr item.monthEl ""
  let weekday := textOr item.weekdayEl ""
  let priceText := textOr item.priceEl "N/A"
  { date := day ++ " " ++ month
    weekday := weekday
    price := parseMoneyAmount priceText
    currency := dateCurrency priceText
    isSelected := item.selected }

/-! ## Time-slot extractor (src/index.ts lines 138..162) -/

/-- A time-slot element (`.flight-header__min-price, .flight-info,
.journey-info`): the element collections and sub-elements queried. -/
structure TimeSlot where
  hourEls : List Elem
  cityEls : List Elem
  priceEl : Option Elem
  flightEl : Option Elem

/-- The record produced per time slot. -/
structure TimeOption where
  departureTime : String
  arrivalTime : String
  price : String
  flightNumber : String
  fromCity : String
  toCity : String
deriving DecidableEq

/-- Per-slot body of the `timeOptions` extraction.  The price and flight
number use `element ? text?.trim() : 'N/A'` with no `||`, so empty trimmed
text is kept. -/
def extractTimeSlot (s : TimeSlot) : TimeOption :=
  { departureTime := idxTextOr s.hourEls 0 "N/A"
    arrivalTime := idxTextOr s.hourEls 1 "N/A"
    price := match s.priceEl with | some e => jsTrim e.text | none => "N/A"
    flightNumber := match s.flightEl with | some e => jsTrim e.text | none => "N/A"
    fromCity := idxTextOr s.cityEls 0 "N/A"
    toCity := idxTextOr s.cityEls 1 "N/A" }

/-! ## Primary flight-card extractor (src/index.ts lines 171..208) -/

/-- A flight-card element: the five sub-elements queried by the primary
extractor (each the first match of its selector cascade, or `none`). -/
structure Card where
  depEl : Option Elem
  arrEl : Option Elem
  flightNumEl : Option Elem
  priceEl : Option Elem
  durationEl : Option Elem

/-- The `FlightData` record of src/index.ts. -/
structure FlightData where
  flightNumber : String
  departureTime : String
  arrivalTime : String
  price : String
  currency : String
  duration : String
  fromAirport : String
  toAirport : String
deriving DecidableEq

/-- Per-card body of the primary flight extraction: the price field keeps the
raw trimmed text of the price element, and the currency is matched out of
that same text separately. -/
def extractCard (origin destination : String) (card : Card) : FlightData :=
  let price := textOr card.priceEl "N/A"
  { flightNumber := textOr card.flightNumEl "N/A"
    departureTime := textOr card.depEl "N/A"
    arrivalTime := textOr card.arrEl "N/A"
    price := price
    currency := cardCurrency price
    duration := textOr card.durationEl "N/A"
    fromAirport := origin
    toAirport := destination }

/-! ## Heuristic (alternative-selector) extractor (src/index.ts lines 218..288) -/

/-- A candidate flight container found by the aggressive scan
(`div[class*="flight"], div[class*="card"], tr[class*="flight"],
div[class*="journey"]`): modelled by its `querySelectorAll` capability,
restricted to text content.  `querySelector` is the head of the returned
collection. -/
structure Container where
  query : String → List Elem

/-- The selector lists the heuristic extractor iterates over. -/
def timeSelectors : List String := ["[class*=\"time\"]", "[class*=\"hour\"]", "strong", ".bold"]

def priceSelectors : List String := ["[class*=\"price\"]", "[class*=\"amount\"]", "[class*=\"fare\"]"]

def flightNumberSelectors : List String :=
  ["[class*=\"flight-number\"]", "[class*=\"number\"]", "[class*=\"code\"]"]

def airportSelectors : List String := ["[class*=\"airport\"]", "[class*=\"station\"]", "[class*=\"code\"]"]

def durationSelectors : List String := ["[class*=\"duration\"]", "[class*=\"time\"]", "[class*=\"length\"]"]

/-- `selectors.join(',')`. -/
def joinSelectors (l : List String) : String := String.intercalate "," l

/-- `getText` of the heuristic extractor: first match of one selector, its
trimmed text, `null` when nothing matches. -/
def getText (c : Container) (sel : String) : Option String :=
  match (c.query sel).head? with
  | some e => some (jsTrim e.text)
  | none => none

/-- JavaScript truthiness of `getText`'s result: `null` and `""` are falsy. -/
def textTruthy (t : Option String) : Bool :=
  match t with
  | some s => s != ""
  | none => false

/-- `getTextMultiSelector`: try the selectors in order, return the first
truthy text, else the literal `'N/A'` (src/index.ts lines 230..236). -/
def getTextMultiSelector (c : Container) : List String → String
  | [] => "N/A"
  | sel :: rest =>
    match getText c sel with
    | some t => if t = "" then getTextMultiSelector c rest else t
    | none => getTextMultiSelector c rest

/-- The record built for a container that passed the two-feature test
(src/index.ts lines 248..285; the debugging-only `containerText` field is
dropped). -/
def heuristicRecord (c : Container) : FlightData :=
  let times := c.query (joinSelectors timeSelectors)
  let airports := c.query (joinSelectors airportSelectors)
  let price := getTextMultiSelector c priceSelectors
  { flightNumber := getTextMultiSelector c flightNumberSelectors
    departureTime := idxTextOr times 0 "N/A"
    arrivalTime :=
      if times.length > 1 then ((times.get? 1).map (fun e => jsTrim e.text)).getD "N/A" else "N/A"
    price := price
    currency := cardCurrency price
    duration := getTextMultiSelector c durationSelectors
    fromAirport := idxTextOr airports 0 "N/A"
    toAirport :=
      if airports.length > 1 then ((airports.get? 1).map (fun e => jsTrim e.text)).getD "N/A"
      else "N/A" }

/-- The heuristic extractor: map each container to a record when it has both
a time-like and a price-like sub-element, to `null` otherwise, then filter
the `null`s out. -/
def moreFlights (containers : List Container) : List FlightData :=
  containers.filterMap (fun c =>
    if ((c.query (joinSelectors timeSelectors)).head?).isSome
        && ((c.query (joinSelectors priceSelectors)).head?).isSome
    then some (heuristicRecord c)
    else none)

/-! ## Page model and the reconciler tiers (src/index.ts lines 98..365) -/

/-- A rendered page, modelled by the collections returned by the fixed
top-level queries of src/index.ts. -/
structure Page where
  dateItems : List DateItem
  timeSlots : List TimeSlot
  flightCards : List Card
  containers : List Container
  routeEl : Option Elem
  directEl : Option Elem
  dateInfoEl : Option Elem
  fromEl : Option Elem
  toEl : Option Elem

def extractDatePrices (p : Page) : List DatePrice := p.dateItems.map extractDateItem

def extractTimeOptions (p : Page) : List TimeOption := p.timeSlots.map extractTimeSlot

/-- Tier 1: the primary card extractor, extended by the heuristic extractor
when it found no card (src/index.ts lines 171..294). -/
def tier1 (p : Page) (origin destination : String) : List FlightData :=
  let flights := p.flightCards.map (extractCard origin destination)
  if flights.length = 0 then flights ++ moreFlights p.containers else flights

/-- The synthetic offer of the selected-date fallback (src/index.ts lines
302..335), carrying the selected date-price forward with `'Check website'`
placeholders and the page-level airport codes when non-empty. -/
def synthOffer (p : Page) (origin destination : String) (dp : DatePrice) : FlightData :=
  let directInfo := optTrim p.directEl
  let fromA := optTrim p.fromEl
  let toA := optTrim p.toEl
  { flightNumber := if directInfo = "" then "Direct" else directInfo
    departureTime := "Check website"
    arrivalTime := "Check website"
    price := dp.price
    currency := stripAmountChars dp.price
    duration := "Check website"
    fromAirport := if fromA = "" then origin else fromA
    toAirport := if toA = "" then destination else toA }

/-- Tier 2: if no flights were found and a selected date-price exists, push
one synthetic offer (src/index.ts lines 297..337). -/
def tier2 (p : Page) (origin destination : String)
    (flights : List FlightData) (datePrices : List DatePrice) : List FlightData :=
  if flights.length = 0 ∧ datePrices.length ≠ 0 then
    match datePrices.find? (fun dp => dp.isSelected) with
    | some dp => flights ++ [synthOffer p origin destination dp]
    | none => flights
  else flights

/-- Conversion of a time option into an offer (src/index.ts lines 345..356). -/
def convTimeOption (origin destination : String) (t : TimeOption) : FlightData :=
  { flightNumber := if t.flightNumber = "" then "Direct flight" else t.flightNumber
    departureTime := t.departureTime
    arrivalTime := t.arrivalTime
    price := t.price
    currency := if stripAmountChars t.price = "" then "Ft" else stripAmountChars t.price
    duration := "See website"
    fromAirport := origin
    toAirport := destination }

/-- Tier 3: replace a lone `'Check website'` offer by one offer per time
slot when time options exist (src/index.ts lines 340..357). -/
def tier3 (timeOptions : List TimeOption) (origin destination : String)
    (flights : List FlightData) : List FlightData :=
  match flights with
  | [f] =>
    if f.departureTime = "Check website" ∧ timeOptions.length ≠ 0 then
      timeOptions.map (convTimeOption origin destination)
    else flights
  | _ => flights

/-- The result record of `checkRyanairPrice`. -/
structure FlightPriceResult where
  flights : List FlightData
  datePrices : List DatePrice
deriving DecidableEq

/-- The extraction pipeline of `checkRyanairPrice` (src/index.ts), from the
DOM snapshot to the returned result: date-strip extraction, time-option
extraction, then the three reconciliation tiers. -/
def checkRyanairPrice (p : Page) (origin destination : String) : FlightPriceResult :=
  let datePrices := extractDatePrices p
  let timeOptions := extractTimeOptions p
  { flights :=
      tier3 timeOptions origin destination
        (tier2 p origin destination (tier1 p origin destination) datePrices)
    datePrices := datePrices }

/-! ## The src/index3.ts variant (second script of the repository) -/

/-- A `.date-item` element as queried by src/index3.ts. -/
structure DateItem3 where
  selected : Bool
  dayMonthEl : Option Elem
  dayEl : Option Elem
  priceEl : Option Elem

/-- The `DatePrice` record of src/index3.ts: the price field keeps the raw
trimmed text of the price element. -/
structure DatePrice3 where
  date : String
  day : String
  price : String
  isSelected : Bool
deriving DecidableEq

def extractDateItem3 (item : DateItem3) : DatePrice3 :=
  { date := textOr item.dayMonthEl ""
    day := textOr item.dayEl ""
    price := textOr item.priceEl "N/A"
    isSelected := item.selected }

/-- The `FlightData` record of src/index3.ts (no airport fields). -/
structure FlightData3 where
  flightNumber : String
  departureTime : String
  arrivalTime : String
  price : String
  currency : String
  duration : String
deriving DecidableEq

/-- The selected-date fallback of src/index3.ts (lines 141..155): if no
flights were found and a selected date-price exists, push one synthetic
offer with `'N/A'` placeholders, carrying the date price forward. -/
def reconcile3 (flights : List FlightData3) (datePrices : List DatePrice3) : List FlightData3 :=
  if flights.length = 0 ∧ datePrices.length ≠ 0 then
    match datePrices.find? (fun dp => dp.isSelected) with
    | some dp =>
      flights ++
        [{ flightNumber := "N/A"
           departureTime := "N/A"
           arrivalTime := "N/A"
           price := dp.price
           currency := stripAmountChars dp.price
           duration := "N/A" }]
    | none => flights
  else flights

/-! ## Cheapest-offer fold (src/index.ts lines 399..410, src/index3.ts
lines 197..208) -/

/-- One step of the `reduce`: `priceA < priceB ? min : flight` — the
accumulator survives only a strictly smaller price. -/
def minStep (a b : FlightData) : FlightData :=
  if jsLtB (getPriceNumeric a.price) (getPriceNumeric b.price) then a else b

/-- The cheapest-flight computation: guarded by `flights.length > 0` in the
scripts, so the empty list maps to `none`; otherwise `Array.prototype.reduce`
without an initial value, a left fold from the first element. -/
def cheapestFlight : List FlightData → Option FlightData
  | [] => none
  | a :: rest => some (rest.foldl minStep a)

/-- The order rank of a JavaScript price value, `Infinity` as `⊤`; only
meaningful away from `NaN`. -/
def rank : JsVal → WithTop ℚ
  | JsVal.nan => ⊤
  | JsVal.inf => ⊤
  | JsVal.num q => (q : WithTop ℚ)

/-- The rank of an offer's price. -/
def offerRank (o : FlightData) : WithTop ℚ := rank (getPriceNumeric o.price)

/-- The minimum price rank over a list of offers (`⊤` when empty). -/
def minRank (l : List FlightData) : WithTop ℚ :=
  l.foldr (fun o m => min (offerRank o) m) ⊤

/-- The comparison step rephrased through ranks (equal to `minStep` away
from `NaN`). -/
def selStep (a b : FlightData) : FlightData :=
  if offerRank a < offerRank b then a else b

/-! ## Concrete fixtures used by witnesses and counterexamples -/

/-- An offer priced `"89 Ft"`. -/
def off89 : FlightData := ⟨"FR1", "06:00", "08:00", "89 Ft", "Ft", "2h", "BUD", "MAN"⟩

/-- An offer priced `"45 Ft"`. -/
def off45 : FlightData := ⟨"FR2", "12:00", "14:00", "45 Ft", "Ft", "2h", "BUD", "MAN"⟩

/-- An offer with the unparsable price sentinel `"N/A"`. -/
def offNA : FlightData := ⟨"FR3", "18:00", "20:00", "N/A", "", "2h", "BUD", "MAN"⟩

/-- An offer whose price text `". Ft"` matches `/[\d,.]+/` as `"."`, which
`parseFloat` turns into `NaN`. -/
def offDot : FlightData := ⟨"FR4", "18:00", "20:00", ". Ft", "Ft", "2h", "BUD", "MAN"⟩

/-- Two distinct offers with the same numeric price. -/
def offEqA : FlightData := ⟨"FR5", "06:00", "08:00", "45 Ft", "Ft", "2h", "BUD", "MAN"⟩

def offEqB : FlightData := ⟨"FR6", "12:00", "14:00", "45 Ft", "Ft", "2h", "BUD", "MAN"⟩

/-- A document scope in which every query matches zero elements. -/
def emptyPage : Page := ⟨[], [], [], [], none, none, none, none, none⟩

/-- A heuristic-scan container with a time element, a price element and two
airport-code elements. -/
def cW : Container :=
  ⟨fun s =>
    if s = joinSelectors timeSelectors then [⟨"10:00"⟩]
    else if s = joinSelectors priceSelectors then [⟨"45 Ft"⟩]
    else if s = joinSelectors airportSelectors then [⟨"XYZ"⟩, ⟨"ABC"⟩]
    else []⟩

/-- A page with no flight cards whose heuristic scan finds `cW`. -/
def pgY : Page := ⟨[], [], [], [cW], none, none, none, none, none⟩

/-- A flight card whose departure-time element happens to carry the text
`"Check website"` — the literal tier 3 uses as the tier-2 marker. -/
def markCard : Card := ⟨some ⟨"Check website"⟩, none, none, some ⟨"99 Ft"⟩, none⟩

def slotA : TimeSlot := ⟨[⟨"06:00"⟩, ⟨"08:00"⟩], [], some ⟨"45 Ft"⟩, none⟩

def slotB : TimeSlot := ⟨[⟨"12:00"⟩, ⟨"14:00"⟩], [], some ⟨"55 Ft"⟩, none⟩

/-- A page where tier 1 finds exactly one card (with the marker text) and
two page-level time slots exist. -/
def pgX : Page := ⟨[], [slotA, slotB], [markCard], [], none, none, none, none, none⟩

/-- An ordinary flight card. -/
def normalCard : Card :=
  ⟨some ⟨"06:00"⟩, some ⟨"08:05"⟩, some ⟨"FR100"⟩, some ⟨"89 Ft"⟩, some ⟨"2h 5m"⟩⟩

/-- A page where tier 1 finds one ordinary card. -/
def pgN : Page := ⟨[], [slotA], [normalCard], [], none, none, none, none, none⟩

/-- A container where selector `"a"` matches nothing and selector `"b"`
matches an element with non-empty trimmed text. -/
def cascadeC : Container := ⟨fun s => if s = "b" then [⟨" hello "⟩] else []⟩

/-- A selected date-fare point priced `"45 Ft"` (src/index3.ts shape). -/
def dp45 : DatePrice3 := ⟨"22 Aug", "Fri", "45 Ft", true⟩

/-- A flight card whose price element reads `"45 Ft"`. -/
def cardW : Card := ⟨none, none, none, some ⟨"45 Ft"⟩, none⟩

/-! ## Helper lemmas -/

theorem matchRun_eq_none_iff (p : Char → Bool) (l : List Char) :
    matchRun p l = none ↔ l.all (fun c => !p c) = true := by
  induction l with
  | nil => simp [matchRun]
  | cons c cs ih =>
    by_cases h : p c = true
    · simp [matchRun, h]
    · simp only [Bool.not_eq_true] at h
      simp [matchRun, h, ih]

theorem matchRun_some_mem (p : Char → Bool) (l r : List Char) (h : matchRun p l = some r) :
    r ≠ [] ∧ ∀ c ∈ r, p c = true := by
  induction l with
  | nil => simp [matchRun] at h
  | cons c cs ih =>
    by_cases hc : p c = true
    · simp only [matchRun, hc, if_pos, Option.some.injEq] at h
      subst h
      refine ⟨by simp, ?_⟩
      intro d hd
      rcases List.mem_cons.mp hd with h1 | h2
      · subst h1; exact hc
      · exact List.mem_takeWhile_imp h2
    · simp only [Bool.not_eq_true] at hc
      simp only [matchRun, hc, Bool.false_eq_true, if_neg, if_false] at h
      exact ih h

theorem pRunsAux_head_of_acc (p : Char → Bool) :
    ∀ (cs acc : List Char), acc ≠ [] →
      (pRunsAux p cs acc).head? = some (acc.reverse ++ cs.takeWhile p) := by
  intro cs
  induction cs with
  | nil =>
    intro acc hacc
    simp [pRunsAux, List.isEmpty_iff, hacc]
  | cons c cs ih =>
    intro acc hacc
    by_cases hc : p c = true
    · simp only [pRunsAux, hc, if_pos]
      rw [ih (c :: acc) (by simp), List.takeWhile_cons_of_pos hc]
      simp
    · simp only [Bool.not_eq_true] at hc
      have ht : List.takeWhile p (c :: cs) = [] := by
        simp [List.takeWhile_cons, hc]
      simp [pRunsAux, hc, List.isEmpty_iff, hacc, ht]

theorem matchRun_eq_head_pRuns (p : Char → Bool) (l : List Char) :
    matchRun p l = (pRuns p l).head? := by
  induction l with
  | nil => simp [matchRun, pRuns, pRunsAux]
  | cons c cs ih =>
    by_cases hc : p c = true
    · simp only [matchRun, hc, if_pos, pRuns, pRunsAux, List.isEmpty_cons]
      rw [pRunsAux_head_of_acc p cs [c] (by simp)]
      simp
    · simp only [Bool.not_eq_true] at hc
      have h1 : pRuns p (c :: cs) = pRuns p cs := by
        show pRunsAux p (c :: cs) [] = pRunsAux p cs []
        simp [pRunsAux, hc]
      have h2 : matchRun p (c :: cs) = matchRun p cs := by
        simp [matchRun, hc]
      rw [h1, h2, ih]

theorem find?_eq_head?_filter {α : Type} (p : α → Bool) (l : List α) :
    l.find? p = (l.filter p).head? := by
  induction l with
  | nil => simp
  | cons a as ih =>
    by_cases h : p a = true
    · rw [List.find?_cons_of_pos _ h, List.filter_cons_of_pos h]
      simp
    · simp only [Bool.not_eq_true] at h
      rw [List.find?_cons_of_neg _ (by simp [h]), List.filter_cons_of_neg (by simp [h])]
      exact ih

theorem jsLtB_eq_rank_lt (x y : JsVal) (hx : x ≠ JsVal.nan) (hy : y ≠ JsVal.nan) :
    jsLtB x y = decide (rank x < rank y) := by
  cases x with
  | nan => exact absurd rfl hx
  | inf =>
    cases y with
    | nan => exact absurd rfl hy
    | inf => simp [jsLtB, rank]
    | num q => simp [jsLtB, rank]
  | num a =>
    cases y with
    | nan => exact absurd rfl hy
    | inf => simp [jsLtB, rank]
    | num b => simp [jsLtB, rank]

theorem minStep_eq_selStep (a b : FlightData)
    (ha : getPriceNumeric a.price ≠ JsVal.nan) (hb : getPriceNumeric b.price ≠ JsVal.nan) :
    minStep a b = selStep a b := by
  simp only [minStep, selStep, offerRank, jsLtB_eq_rank_lt _ _ ha hb, decide_eq_true_eq]

theorem selStep_or (a b : FlightData) : selStep a b = a ∨ selStep a b = b := by
  unfold selStep
  by_cases h : offerRank a < offerRank b
  · exact Or.inl (if_pos h)
  · exact Or.inr (if_neg h)

theorem offerRank_selStep (a b : FlightData) :
    offerRank (selStep a b) = min (offerRank a) (offerRank b) := by
  unfold selStep
  by_cases h : offerRank a < offerRank b
  · rw [if_pos h, min_eq_left h.le]
  · rw [if_neg h, min_eq_right (not_lt.mp h)]

theorem foldl_minStep_eq_foldl_selStep :
    ∀ (l : List FlightData) (a : FlightData),
      (∀ o ∈ a :: l, getPriceNumeric o.price ≠ JsVal.nan) →
      l.foldl minStep a = l.foldl selStep a := by
  intro l
  induction l with
  | nil => intro a _; rfl
  | cons b t ih =>
    intro a h
    have ha : getPriceNumeric a.price ≠ JsVal.nan := h a (by simp)
    have hb : getPriceNumeric b.price ≠ JsVal.nan := h b (by simp)
    have hs : ∀ o ∈ selStep a b :: t, getPriceNumeric o.price ≠ JsVal.nan := by
      intro o ho
      rcases List.mem_cons.mp ho with h1 | h2
      · rcases selStep_or a b with hsa | hsb
        · rw [h1, hsa]; exact ha
        · rw [h1, hsb]; exact hb
      · exact h o (by simp [h2])
    calc (b :: t).foldl minStep a = t.foldl minStep (minStep a b) := rfl
      _ = t.foldl minStep (selStep a b) := by rw [minStep_eq_selStep a b ha hb]
      _ = t.foldl selStep (selStep a b) := ih (selStep a b) hs
      _ = (b :: t).foldl selStep a := rfl

theorem minRank_cons (a : FlightData) (l : List FlightData) :
    minRank (a :: l) = min (offerRank a) (minRank l) := rfl

theorem exists_offerRank_minRank :
    ∀ (l : List FlightData), l ≠ [] → ∃ o ∈ l, offerRank o = minRank l := by
  intro l
  induction l with
  | nil => intro h; exact absurd rfl h
  | cons a t ih =>
    intro _
    by_cases ht : t = []
    · subst ht
      exact ⟨a, by simp, by rw [minRank_cons]; simp [minRank, min_eq_left le_top]⟩
    · rcases ih ht with ⟨x, hx, hrx⟩
      by_cases hle : offerRank a ≤ minRank t
      · exact ⟨a, by simp, by rw [minRank_cons, min_eq_left hle]⟩
      · refine ⟨x, by simp [hx], ?_⟩
        rw [minRank_cons, min_eq_right (le_of_not_le hle), hrx]

theorem foldl_selStep_getLast :
    ∀ (l : List FlightData) (a : FlightData),
      some (l.foldl selStep a)
        = ((a :: l).filter (fun o => decide (offerRank o = minRank (a :: l)))).getLast? := by
  intro l
  induction l with
  | nil =>
    intro a
    have hm : minRank [a] = offerRank a := by
      rw [minRank_cons]; exact min_eq_left le_top
    rw [List.filter_cons_of_pos (by simp [hm])]
    rfl
  | cons b t ih =>
    intro a
    have hmin : minRank (selStep a b :: t) = minRank (a :: b :: t) := by
      rw [minRank_cons, minRank_cons, minRank_cons, offerRank_selStep, min_assoc]
    have hstep :
        some ((b :: t).foldl selStep a)
          = ((selStep a b :: t).filter
              (fun o => decide (offerRank o = minRank (a :: b :: t)))).getLast? := by
      have h0 := ih (selStep a b)
      simp only [hmin] at h0
      exact h0
    rw [hstep]
    by_cases hft :
        t.filter (fun o => decide (offerRank o = minRank (a :: b :: t))) = []
    · have hmle : min (offerRank a) (offerRank b) ≤ minRank t := by
        by_contra hcon
        push_neg at hcon
        have htne : t ≠ [] := by
          intro h0
          subst h0
          exact absurd hcon (by simp [minRank, not_top_lt])
        rcases exists_offerRank_minRank t htne with ⟨x, hx, hrx⟩
        have hpm : offerRank x = minRank (a :: b :: t) := by
          rw [minRank_cons, minRank_cons, ← min_assoc, min_eq_right hcon.le]
          exact hrx
        have hmem : x ∈ t.filter (fun o => decide (offerRank o = minRank (a :: b :: t))) :=
          List.mem_filter.mpr ⟨hx, by simp [hpm]⟩
        rw [hft] at hmem
        exact absurd hmem (List.not_mem_nil x)
      have hm2 : minRank (a :: b :: t) = min (offerRank a) (offerRank b) := by
        rw [minRank_cons, minRank_cons, ← min_assoc]
        exact min_eq_left hmle
      by_cases hab : offerRank a < offerRank b
      · have hs : selStep a b = a := if_pos hab
        have hPa : offerRank a = minRank (a :: b :: t) := by
          rw [hm2, min_eq_left hab.le]
        have hPb : ¬ offerRank b = minRank (a :: b :: t) := by
          rw [hm2, min_eq_left hab.le]
          intro h
          exact absurd h.symm (ne_of_lt hab)
        rw [hs, List.filter_cons_of_pos (by simp [hPa]),
          List.filter_cons_of_pos (by simp [hPa]), List.filter_cons_of_neg (by simp [hPb])]
      · have hs : selStep a b = b := if_neg hab
        have hPb : offerRank b = minRank (a :: b :: t) := by
          rw [hm2, min_eq_right (not_lt.mp hab)]
        have f2 :
            (selStep a b :: t).filter (fun o => decide (offerRank o = minRank (a :: b :: t)))
              = b :: t.filter (fun o => decide (offerRank o = minRank (a :: b :: t))) := by
          rw [hs, List.filter_cons_of_pos (by simp [hPb])]
        have fbt :
            (b :: t).filter (fun o => decide (offerRank o = minRank (a :: b :: t)))
              = b :: t.filter (fun o => decide (offerRank o = minRank (a :: b :: t))) :=
          List.filter_cons_of_pos (by simp [hPb])
        rw [f2]
        by_cases hPa : offerRank a = minRank (a :: b :: t)
        · rw [List.filter_cons_of_pos (l := b :: t) (by simp [hPa]), fbt,
            List.getLast?_cons_cons]
        · rw [List.filter_cons_of_neg (l := b :: t) (by simp [hPa]), fbt]
    · have f1 :
          (a :: b :: t).filter (fun o => decide (offerRank o = minRank (a :: b :: t)))
            = [a, b].filter (fun o => decide (offerRank o = minRank (a :: b :: t)))
              ++ t.filter (fun o => decide (offerRank o = minRank (a :: b :: t))) := by
        rw [show a :: b :: t = [a, b] ++ t from rfl, List.filter_append]
      have f2 :
          (selStep a b :: t).filter (fun o => decide (offerRank o = minRank (a :: b :: t)))
            = [selStep a b].filter (fun o => decide (offerRank o = minRank (a :: b :: t)))
              ++ t.filter (fun o => decide (offerRank o = minRank (a :: b :: t))) := by
        rw [show selStep a b :: t = [selStep a b] ++ t from rfl, List.filter_append]
      rw [f1, f2, List.getLast?_append_of_ne_nil _ hft, List.getLast?_append_of_ne_nil _ hft]

/-! ## Claim theorems -/

/-- Claim C1 counterexample: two offers with equal numeric price — the
fold returns the second, not the first-encountered one; and an offer whose
matched price run `"."` parses to `NaN` is returned ahead of an offer with
finite numeric price 45, so the result need not attain the minimum. -/
theorem claim_c1_counterexample :
    cheapestFlight [offEqA, offEqB] = some offEqB ∧ offEqB ≠ offEqA
      ∧ getPriceNumeric offEqA.price = getPriceNumeric offEqB.price
      ∧ cheapestFlight [off45, offDot] = some offDot
      ∧ getPriceNumeric offDot.price = JsVal.nan
      ∧ getPriceNumeric off45.price = JsVal.num 45 := by decide

/-- Claim C1 (corrected): over a sequence of offers none of whose prices
parses to `NaN`, `cheapestFlight` is the linear fold returning the offer
attaining the minimum numeric value of `getPriceNumeric` over the price
strings; on equal numeric prices the LAST-encountered offer is kept (the
accumulator survives only a strictly smaller price), and the empty sequence
yields `none`.  The result is exactly the last element of the list whose
price rank equals the minimum rank. -/
theorem claim_c1_cheapest_last_argmin (l : List FlightData)
    (h : ∀ o ∈ l, getPriceNumeric o.price ≠ JsVal.nan) :
    cheapestFlight l
      = (l.filter (fun o => decide (offerRank o = minRank l))).getLast? := by
  cases l with
  | nil => rfl
  | cons a t =>
    show some (t.foldl minStep a) = _
    rw [foldl_minStep_eq_foldl_selStep t a h]
    exact foldl_selStep_getLast t a

/-- Witness for C1: over the offers priced `"89 Ft"`, `"45 Ft"`, `"N/A"`
(no `NaN` price among them) the fold returns the offer priced `"45 Ft"`. -/
theorem claim_c1_witness :
    (∀ o ∈ [off89, off45, offNA], getPriceNumeric o.price ≠ JsVal.nan)
      ∧ cheapestFlight [off89, off45, offNA] = some off45 := by
  constructor
  · decide
  · rw [claim_c1_cheapest_last_argmin [off89, off45, offNA] (by decide)]
    decide

/-- Claim C2 counterexample: on `"1 ab 345"` the amount scan returns `"1"`
(the first run), not the longest run `"345"`; and on `"123"` the date-strip
currency fallback is `"N/A"`, not `""`. -/
theorem claim_c2_counterexample :
    parseMoneyAmount "1 ab 345" = "1"
      ∧ longestRun isAmountChar ("1 ab 345").data = some ("345").data
      ∧ ("1" : String) ≠ "345"
      ∧ dateCurrency "123" = "N/A" ∧ ("N/A" : String) ≠ "" := by decide

/-- Claim C2 (corrected): for every input text the amount is the FIRST
(leftmost) maximal contiguous run of digit/comma/period characters, with
fallback `"N/A"`; the currency symbol is the first maximal run of characters
that are not digit/space/comma/period, with fallback `""` at the flight-card
site but `"N/A"` at the date-strip site. -/
theorem claim_c2_first_run (text : String) :
    parseMoneyAmount text = ((pRuns isAmountChar text.data).head?).elim "N/A" String.mk
      ∧ dateCurrency text = ((pRuns isCurrencyChar text.data).head?).elim "N/A" String.mk
      ∧ cardCurrency text = ((pRuns isCurrencyChar text.data).head?).elim "" String.mk := by
  refine ⟨?_, ?_, ?_⟩ <;>
    simp [parseMoneyAmount, dateCurrency, cardCurrency, matchRun_eq_head_pRuns]

/-- Claim C6 counterexample: the price text `"."` matches `/[\d,.]+/` but
`parseFloat` yields `NaN`, not `Infinity`; and such a record DOES win the
minimum-price fold against an offer with parsable price `"45 Ft"`. -/
theorem claim_c6_counterexample :
    getPriceNumeric "." = JsVal.nan ∧ JsVal.nan ≠ JsVal.inf
      ∧ minStep off45 offDot = offDot
      ∧ cheapestFlight [off45, offDot] = some offDot := by decide

/-- Claim C6 (corrected): `getPriceNumeric` is total and returns `Infinity`
exactly when the price text contains no digit/comma/period character at all
(in particular for the sentinel `"N/A"`), and an `Infinity`-valued record
never wins a comparison step against a finite-valued one; but a matched yet
numerically unparsable run (such as `"."`) yields `NaN` instead, which is
not covered by the infinity sentinel. -/
theorem claim_c6_infinity_sentinel :
    (∀ price : String,
        getPriceNumeric price = JsVal.inf ↔ price.data.all (fun c => !isAmountChar c) = true)
      ∧ (∀ a b : FlightData,
          getPriceNumeric a.price ≠ JsVal.inf → getPriceNumeric a.price ≠ JsVal.nan →
          getPriceNumeric b.price = JsVal.inf →
          minStep a b = a ∧ minStep b a = a) := by
  constructor
  · intro price
    rw [show (price.data.all (fun c => !isAmountChar c) = true)
        ↔ matchRun isAmountChar price.data = none from (matchRun_eq_none_iff _ _).symm]
    unfold getPriceNumeric
    cases hm : matchRun isAmountChar price.data with
    | none => simp
    | some run =>
      cases hp : jsParseFloat (run.filter (fun c => c ≠ ',')) with
      | none =>
        simp only [decide_not] at hp
        simp [hp]
      | some q =>
        simp only [decide_not] at hp
        simp [hp]
  · intro a b ha hnan hb
    cases hva : getPriceNumeric a.price with
    | nan => exact absurd hva hnan
    | inf => exact absurd hva ha
    | num q =>
      constructor
      · unfold minStep
        rw [hva, hb]
        simp [jsLtB]
      · unfold minStep
        rw [hb, hva]
        simp [jsLtB]

/-- Witness for C6: `"N/A"` maps to `Infinity`, and the `Infinity`-priced
offer loses the comparison step against the `"45 Ft"` offer in both orders. -/
theorem claim_c6_witness :
    getPriceNumeric "N/A" = JsVal.inf
      ∧ minStep off45 offNA = off45 ∧ minStep offNA off45 = off45 :=
  ⟨(claim_c6_infinity_sentinel.1 "N/A").mpr (by decide),
    claim_c6_infinity_sentinel.2 off45 offNA (by decide) (by decide) (by decide)⟩

/-- Claim C3 (confirmed): `getTextMultiSelector` tries the selector list
strictly in order; the first selector whose first match under the scope has
non-empty trimmed text wins, and the result is that text for EVERY choice of
later selectors (so the later strategies can never influence the outcome);
when every selector yields falsy text the literal `"N/A"` is returned. -/
theorem claim_c3_cascade :
    (∀ (c : Container) (pre : List String) (sel : String) (post : List String) (t : String),
        (∀ s ∈ pre, textTruthy (getText c s) = false) →
        getText c sel = some t → t ≠ "" →
        getTextMultiSelector c (pre ++ sel :: post) = t)
      ∧ (∀ (c : Container) (sels : List String),
          (∀ s ∈ sels, textTruthy (getText c s) = false) →
          getTextMultiSelector c sels = "N/A") := by
  constructor
  · intro c pre
    induction pre with
    | nil =>
      intro sel post t _ hsel ht
      simp [getTextMultiSelector, hsel, ht]
    | cons s0 rest ih =>
      intro sel post t hpre hsel ht
      have h0 : textTruthy (getText c s0) = false := hpre s0 (by simp)
      have hrec := ih sel post t (fun s hs => hpre s (by simp [hs])) hsel ht
      cases hg : getText c s0 with
      | none =>
        simpa [getTextMultiSelector, hg] using hrec
      | some u =>
        have hu : u = "" := by
          rw [hg] at h0
          simpa [textTruthy] using h0
        simpa [getTextMultiSelector, hg, hu] using hrec
  · intro c sels
    induction sels with
    | nil => intro _; rfl
    | cons s0 rest ih =>
      intro h
      have h0 : textTruthy (getText c s0) = false := h s0 (by simp)
      have hrec := ih (fun s hs => h s (by simp [hs]))
      cases hg : getText c s0 with
      | none => simpa [getTextMultiSelector, hg] using hrec
      | some u =>
        have hu : u = "" := by
          rw [hg] at h0
          simpa [textTruthy] using h0
        simpa [getTextMultiSelector, hg, hu] using hrec

/-- Witness for C3: in `cascadeC`, selector `"a"` is falsy, selector `"b"`
yields `"hello"`, so the cascade over `["a", "b", "c"]` returns `"hello"`
without consulting `"c"`, and over `["a", "c"]` returns `"N/A"`. -/
theorem claim_c3_witness :
    getTextMultiSelector cascadeC ["a", "b", "c"] = "hello"
      ∧ getTextMultiSelector cascadeC ["a", "c"] = "N/A" :=
  ⟨claim_c3_cascade.1 cascadeC ["a"] "b" ["c"] "hello" (by decide) (by decide) (by decide),
    claim_c3_cascade.2 cascadeC ["a", "c"] (by decide)⟩

/-- Claim C4 (confirmed): when tier 1 yields zero offers and exactly one
extracted date-fare point is selected, the reconciler emits exactly one
synthesized offer carrying that point's price verbatim, with placeholder
time and duration fields (`"N/A"` in src/index3.ts, `"Check website"` in
src/index.ts). -/
theorem claim_c4_selected_date_fallback :
    (∀ (dps : List DatePrice3) (dp : DatePrice3),
        dps.filter (fun x => x.isSelected) = [dp] →
        reconcile3 [] dps
          = [{ flightNumber := "N/A", departureTime := "N/A", arrivalTime := "N/A",
               price := dp.price, currency := stripAmountChars dp.price, duration := "N/A" }])
      ∧ (∀ (p : Page) (o d : String) (dps : List DatePrice) (dp : DatePrice),
          dps.filter (fun x => x.isSelected) = [dp] →
          tier2 p o d [] dps = [synthOffer p o d dp]
            ∧ (synthOffer p o d dp).price = dp.price
            ∧ (synthOffer p o d dp).departureTime = "Check website"
            ∧ (synthOffer p o d dp).arrivalTime = "Check website"
            ∧ (synthOffer p o d dp).duration = "Check website") := by
  constructor
  · intro dps dp hfil
    have hfind : dps.find? (fun x => x.isSelected) = some dp := by
      rw [find?_eq_head?_filter, hfil]
      rfl
    have hne : dps ≠ [] := by
      intro h0
      subst h0
      simp at hfil
    have hlen : dps.length ≠ 0 := by
      simpa [List.length_eq_zero] using hne
    simp [reconcile3, hfind, hlen]
  · intro p o d dps dp hfil
    have hfind : dps.find? (fun x => x.isSelected) = some dp := by
      rw [find?_eq_head?_filter, hfil]
      rfl
    have hne : dps ≠ [] := by
      intro h0
      subst h0
      simp at hfil
    have hlen : dps.length ≠ 0 := by
      simpa [List.length_eq_zero] using hne
    exact ⟨by simp [tier2, hfind, hlen], rfl, rfl, rfl, rfl⟩

/-- Witness for C4: with the single selected date-fare point priced
`"45 Ft"`, the src/index3.ts reconciler emits exactly the one synthetic
offer priced `"45 Ft"` with `"N/A"` placeholders. -/
theorem claim_c4_witness :
    reconcile3 [] [dp45]
      = [{ flightNumber := "N/A", departureTime := "N/A", arrivalTime := "N/A",
           price := "45 Ft", currency := "Ft", duration := "N/A" }] := by
  have h := claim_c4_selected_date_fallback.1 [dp45] dp45 (by decide)
  rw [h]
  decide

/-- Claim C5 counterexample: on `pgX` tier 1 produces one offer (a card
whose departure-time text happens to read `"Check website"`), yet tier 3
still runs — the tier-1 offer is discarded and replaced by one offer per
time slot — because the tier-3 guard recognizes the tier-2 synthetic offer
only by that marker string, not by provenance. -/
theorem claim_c5_counterexample :
    tier1 pgX "BUD" "MAN" ≠ []
      ∧ (checkRyanairPrice pgX "BUD" "MAN").flights
          = [convTimeOption "BUD" "MAN" (extractTimeSlot slotA),
             convTimeOption "BUD" "MAN" (extractTimeSlot slotB)]
      ∧ ∀ f ∈ tier1 pgX "BUD" "MAN", f ∉ (checkRyanairPrice pgX "BUD" "MAN").flights := by
  decide

/-- Claim C5 (corrected): the tiers run top to bottom; tier 2 applies only
when tier 1 produced zero offers; tier 3 discards the lone marker offer and
produces exactly one offer per time slot when time slots exist; and the
pipeline keeps tier 1's offers untouched whenever tier 1 is non-empty and
none of its offers carries the literal departure-time text
`"Check website"` — the marker by which alone tier 3 identifies the tier-2
synthetic offer. -/
theorem claim_c5_tiering :
    (∀ (p : Page) (o d : String) (fl : List FlightData) (dps : List DatePrice),
        fl ≠ [] → tier2 p o d fl dps = fl)
      ∧ (∀ (tos : List TimeOption) (o d : String) (f : FlightData),
          f.departureTime = "Check website" → tos ≠ [] →
          tier3 tos o d [f] = tos.map (convTimeOption o d))
      ∧ (∀ (p : Page) (o d : String),
          tier1 p o d ≠ [] →
          (∀ f ∈ tier1 p o d, f.departureTime ≠ "Check website") →
          (checkRyanairPrice p o d).flights = tier1 p o d) := by
  have part1 : ∀ (p : Page) (o d : String) (fl : List FlightData) (dps : List DatePrice),
      fl ≠ [] → tier2 p o d fl dps = fl := by
    intro p o d fl dps hfl
    have hcond : ¬ (fl.length = 0 ∧ dps.length ≠ 0) := by
      intro hc
      exact hfl (List.length_eq_zero.mp hc.1)
    unfold tier2
    rw [if_neg hcond]
  have part2 : ∀ (tos : List TimeOption) (o d : String) (f : FlightData),
      f.departureTime = "Check website" → tos ≠ [] →
      tier3 tos o d [f] = tos.map (convTimeOption o d) := by
    intro tos o d f hf htos
    have hlen : tos.length ≠ 0 := by
      simpa [List.length_eq_zero] using htos
    simp [tier3, hf, hlen]
  refine ⟨part1, part2, ?_⟩
  intro p o d h1 h2
  have e2 : tier2 p o d (tier1 p o d) (extractDatePrices p) = tier1 p o d :=
    part1 p o d (tier1 p o d) (extractDatePrices p) h1
  show tier3 (extractTimeOptions p) o d
      (tier2 p o d (tier1 p o d) (extractDatePrices p)) = tier1 p o d
  rw [e2]
  rcases htl : tier1 p o d with _ | ⟨f, rest⟩
  · rfl
  · rcases rest with _ | ⟨g, rest2⟩
    · have hne : f.departureTime ≠ "Check website" := h2 f (by rw [htl]; simp)
      simp [tier3, hne]
    · rfl

/-- Witness for C5: on `pgN` tier 1 finds one ordinary card (no marker
text) and the pipeline returns exactly tier 1's offers, although a time
slot exists. -/
theorem claim_c5_witness :
    tier1 pgN "BUD" "MAN" ≠ []
      ∧ (checkRyanairPrice pgN "BUD" "MAN").flights = tier1 pgN "BUD" "MAN" :=
  ⟨by decide, claim_c5_tiering.2.2 pgN "BUD" "MAN" (by decide) (by decide)⟩

/-- Claim C7 (confirmed): on a document scope with zero matching elements
for every selector, the extraction pipeline returns the empty result — no
offers, no nearby dates — and, being a total function, raises nothing:
every field resolution bottoms out in its fallback value. -/
theorem claim_c7_empty_scope (o d : String) :
    checkRyanairPrice emptyPage o d = { flights := [], datePrices := [] } := rfl

/-- Claim C8 (confirmed): the heuristic extractor maps the scanned
containers through the two-feature presence test — an offer is produced for
a container if and only if both the joined time-like selector and the
joined price-like selector match at least one sub-element — and containers
failing the test contribute nothing. -/
theorem filterMap_if_eq_filter_map {α β : Type} (p : α → Bool) (f : α → β) (l : List α) :
    l.filterMap (fun x => if p x then some (f x) else none) = (l.filter p).map f := by
  induction l with
  | nil => rfl
  | cons a as ih =>
    by_cases h : p a = true
    · rw [List.filterMap_cons, List.filter_cons_of_pos h, List.map_cons, ← ih]
      simp only [h, if_pos]
    · have h' : p a = false := by simpa using h
      rw [List.filterMap_cons, List.filter_cons_of_neg (by simp [h']), ← ih]
      simp only [h', Bool.false_eq_true, if_false]

theorem claim_c8_two_feature_test :
    (∀ (containers : List Container),
        moreFlights containers
          = (containers.filter (fun c =>
              ((c.query (joinSelectors timeSelectors)).head?).isSome
                && ((c.query (joinSelectors priceSelectors)).head?).isSome)).map
              heuristicRecord)
      ∧ (∀ (c : Container) (sel : String),
          ((c.query sel).head?).isSome = true ↔ c.query sel ≠ []) := by
  constructor
  · intro containers
    exact filterMap_if_eq_filter_map
      (fun c => ((c.query (joinSelectors timeSelectors)).head?).isSome
        && ((c.query (joinSelectors priceSelectors)).head?).isSome)
      heuristicRecord containers
  · intro c sel
    cases h : c.query sel with
    | nil => simp
    | cons e es => simp

/-- Claim C9 counterexample: on `pgY` the only produced offer comes from
the heuristic extractor, whose airport fields are scraped from
airport/station/code-like elements of the page — `"XYZ"` and `"ABC"` — and
do not equal the query parameters `"BUD"`/`"MAN"`, although the page-level
fallback extraction (tier 2) never ran. -/
theorem claim_c9_counterexample :
    (checkRyanairPrice pgY "BUD" "MAN").flights.map (fun o => o.fromAirport) = ["XYZ"]
      ∧ ("XYZ" : String) ≠ "BUD"
      ∧ (checkRyanairPrice pgY "BUD" "MAN").flights.map (fun o => o.toAirport) = ["ABC"]
      ∧ ("ABC" : String) ≠ "MAN"
      ∧ pgY.fromEl = none ∧ pgY.toEl = none := by decide

/-- Claim C9 (corrected): the primary card extractor and the tier-3
time-slot conversion carry the query's origin and destination codes
unchanged; the tier-2 synthetic offer takes them from the page-level
fallback elements when those yield non-empty text, else from the query; but
the heuristic (alternative-selector) extractor is a further path that
scrapes the airport fields from the page (first and second match of the
airport/station/code selectors, default `"N/A"`). -/
theorem claim_c9_airport_codes :
    (∀ (o d : String) (card : Card),
        (extractCard o d card).fromAirport = o ∧ (extractCard o d card).toAirport = d)
      ∧ (∀ (o d : String) (t : TimeOption),
          (convTimeOption o d t).fromAirport = o ∧ (convTimeOption o d t).toAirport = d)
      ∧ (∀ (p : Page) (o d : String) (dp : DatePrice),
          (synthOffer p o d dp).fromAirport
              = (if optTrim p.fromEl = "" then o else optTrim p.fromEl)
            ∧ (synthOffer p o d dp).toAirport
              = (if optTrim p.toEl = "" then d else optTrim p.toEl))
      ∧ (∀ (c : Container),
          (heuristicRecord c).fromAirport
            = idxTextOr (c.query (joinSelectors airportSelectors)) 0 "N/A") :=
  ⟨fun _ _ _ => ⟨rfl, rfl⟩, fun _ _ _ => ⟨rfl, rfl⟩,
    fun _ _ _ _ => ⟨rfl, rfl⟩, fun _ => rfl⟩

/-- Claim C10 (confirmed): a `DatePrice` record's price field holds only
the matched numeric run — every character of it is a digit, comma or
period, so the currency symbol is excluded — or the sentinel `"N/A"`;
whereas a `FlightData` record from the primary card extractor keeps the raw
trimmed text of the price element as its price (currency symbol included),
with the currency also matched out separately into its own field. -/
theorem claim_c10_price_representation :
    (∀ (item : DateItem),
        (extractDateItem item).price = "N/A"
          ∨ ((extractDateItem item).price ≠ ""
              ∧ ∀ ch ∈ (extractDateItem item).price.data, isAmountChar ch = true))
      ∧ (∀ (o d : String) (card : Card) (el : Elem),
          card.priceEl = some el → jsTrim el.text ≠ "" →
          (extractCard o d card).price = jsTrim el.text
            ∧ (extractCard o d card).currency = cardCurrency (jsTrim el.text)) := by
  constructor
  · intro item
    have hpr : (extractDateItem item).price
        = parseMoneyAmount (textOr item.priceEl "N/A") := rfl
    cases hm : matchRun isAmountChar (textOr item.priceEl "N/A").data with
    | none =>
      left
      rw [hpr]
      simp [parseMoneyAmount, hm]
    | some run =>
      right
      rcases matchRun_some_mem isAmountChar _ run hm with ⟨hne, hall⟩
      have hstr : (extractDateItem item).price = String.mk run := by
        rw [hpr]
        simp [parseMoneyAmount, hm]
      constructor
      · rw [hstr]
        intro h0
        exact hne (congrArg String.data h0)
      · intro ch hch
        rw [hstr] at hch
        exact hall ch hch
  · intro o d card el hel hne
    constructor
    · show textOr card.priceEl "N/A" = jsTrim el.text
      rw [hel]
      simp [textOr, hne]
    · show cardCurrency (textOr card.priceEl "N/A") = cardCurrency (jsTrim el.text)
      rw [hel]
      simp [textOr, hne]

/-- Witness for C10: a card whose price element reads `"45 Ft"` produces an
offer with price `"45 Ft"` (symbol kept) and currency `"Ft"`, while a
date-strip item with the same text yields price `"45"` (symbol removed). -/
theorem claim_c10_witness :
    cardW.priceEl = some ⟨"45 Ft"⟩
      ∧ jsTrim "45 Ft" ≠ ""
      ∧ (extractCard "BUD" "MAN" cardW).price = "45 Ft"
      ∧ (extractCard "BUD" "MAN" cardW).currency = "Ft"
      ∧ parseMoneyAmount "45 Ft" = "45" := by
  have h := claim_c10_price_representation.2 "BUD" "MAN" cardW ⟨"45 Ft"⟩ rfl (by decide)
  refine ⟨rfl, by decide, ?_, ?_, by decide⟩
  · rw [h.1]
    decide
  · rw [h.2]
    decide
